import Mathlib

/-!
Verification of `tlx.apigateway` (file `src/tlx/apigateway/__init__.py`):
a decorator `handler` whose inner `wrapper` turns a lambda handler's
returns and exceptions into API-Gateway proxy response envelopes, plus
field-presence validators and the `APIGException` error class.

Python values flowing through the wrapper are JSON-serializable data;
we model them with an inductive `Json` type.  Python exceptions are
modelled by `PyExc`; a Python function that may raise is modelled as
returning `Except PyExc α`.
-/

namespace Tlx

/-- JSON-serializable Python values (dict, list, str, int, bool, None). -/
inductive Json where
  | null
  | bool (b : Bool)
  | num (n : Int)
  | str (s : String)
  | arr (elems : List Json)
  | obj (fields : List (String × Json))

/-- A Python dict with string keys, as an association list. -/
abbrev Dict := List (String × Json)

/-- `d[k]` lookup on a dict. -/
def dictGet (d : Dict) (k : String) : Option Json :=
  match d with
  | [] => none
  | (k2, v) :: rest => if k2 = k then some v else dictGet rest k

/-- The key set of a dict (what iterating a Python dict yields, as a set). -/
def dictKeys (d : Dict) : Finset String :=
  (d.map Prod.fst).toFinset

/-- Python `f"{list(keys)}"`: the repr of a list of strings,
    e.g. `[\x27a\x27, \x27b\x27]`. -/
def pyListRepr (keys : List String) : String :=
  "[" ++ String.intercalate ", " (keys.map fun k => "\x27" ++ k ++ "\x27") ++ "]"

/-- Python exceptions relevant to the wrapper.  `apig` is `APIGException`
    (line 88: carries a message and a `code`, default 500);
    `jsonDecodeError` is `json.decoder.JSONDecodeError`; `keyError` is the
    `KeyError` raised by `"...".format(**event)` (line 45) when a key is
    missing; `attributeError` is e.g. `None.keys()` (line 78);
    `exceptionOf e` is `Exception(e)` built by the re-raise at line 58. -/
inductive PyExc where
  | apig (message : String) (code : Int)
  | jsonDecodeError
  | keyError (key : String)
  | attributeError (msg : String)
  | exceptionOf (cause : PyExc)
  | other (msg : String)
deriving DecidableEq

/-- `APIGException(message)` with the code left unspecified gets the
    default `code=500` (line 96). -/
def APIGException.mkDefault (message : String) : PyExc :=
  .apig message 500

/-- What the inner handler does on a given invocation: return a value or
    raise an exception. -/
inductive HandlerResult where
  | ret (v : Json)
  | raise (e : PyExc)

/-- The wrapper stores `statusCode` first as the int `500` (line 29) and
    later as the string `"200"` (line 47), so its type is int-or-string. -/
inductive StatusCode where
  | int (n : Int)
  | str (s : String)
deriving DecidableEq

/-- The mutable `response` dict of `wrapper` (lines 28-34), with the body
    flattened into its two keys: `response.statusCode`,
    `response["body"]["message"]` and `response["body"]["response"]`
    (`none` models the key being deleted). -/
structure ResponseState where
  statusCode : StatusCode
  message : String
  response : Option Json

/-- Lines 28-34: the default response. -/
def defaultResponse : ResponseState :=
  { statusCode := .int 500
    message := "Error saving data.  Check logs for more info."
    response := some (.obj []) }

/-- Lines 36-40: `setup_error_response(msg, code=None)`.  Note `if code:`
    (line 39): the status code is only replaced when `code` is truthy,
    i.e. present and nonzero. -/
def setup_error_response (response : ResponseState) (msg : String)
    (code : Option Int) : ResponseState :=
  let response := { response with message := msg }
  match code with
  | some c => if c ≠ 0 then { response with statusCode := .int c } else response
  | none => response

/-- Lines 42-49, the `try` block.  Line 45 formats
    `"Received {resource} ... {queryStringParameters} ... {body}"` with
    `**event`, raising `KeyError` when any of the three keys is missing
    (argument evaluation happens regardless of log level).  Then lines
    47-48 set `statusCode = "200"` (a string!) and `message = "Success"`
    before line 49 calls `func`.  On a raise we return the exception
    together with the `response` state as already mutated at that point. -/
def tryBlock {Ctx : Type} (func : Dict → Ctx → HandlerResult)
    (event : Dict) (ctx : Ctx) : Except (PyExc × ResponseState) ResponseState :=
  match dictGet event "resource" with
  | none => .error (.keyError "resource", defaultResponse)
  | some _ =>
    match dictGet event "queryStringParameters" with
    | none => .error (.keyError "queryStringParameters", defaultResponse)
    | some _ =>
      match dictGet event "body" with
      | none => .error (.keyError "body", defaultResponse)
      | some _ =>
        let response := { defaultResponse with
                            statusCode := StatusCode.str "200",
                            message := "Success" }
        match func event ctx with
        | .ret v => .ok { response with response := some v }
        | .raise e => .error (e, response)

/-- Lines 52-59, the `except` clauses, applied to the outcome of the
    `try` block.  `APIGException` and `JSONDecodeError` are handled via
    `setup_error_response`; any other exception `e` is re-raised as
    `Exception(e)` (line 58) — line 59 after the `raise` is dead code. -/
def exceptBlocks (attempt : Except (PyExc × ResponseState) ResponseState) :
    Except PyExc ResponseState :=
  match attempt with
  | .ok r => .ok r
  | .error (.apig m c, st) =>
      .ok (setup_error_response st ("Error: " ++ m) (some c))
  | .error (.jsonDecodeError, st) =>
      .ok (setup_error_response st "Input data is not JSON" none)
  | .error (e, _) => .error (.exceptionOf e)

/-- Lines 62-63: `if response["body"]["response"] is None: del ...`. -/
def finalPrep (st : ResponseState) : ResponseState :=
  match st.response with
  | some .null => { st with response := none }
  | _ => st

/-- The body dict `{message, response?}` as a key-ordered field list
    (insertion order: `message` first, line 31). -/
def bodyFields (st : ResponseState) : List (String × Json) :=
  ("message", Json.str st.message) ::
    (match st.response with
     | some v => [("response", v)]
     | none => [])

/-- The full run of `wrapper` up to (but excluding) the `json_dumps`
    serialization of the body at line 64: either the raised exception or
    the final pre-serialization response state. -/
def wrapperRun {Ctx : Type} (func : Dict → Ctx → HandlerResult)
    (event : Dict) (ctx : Ctx) : Except PyExc ResponseState :=
  (exceptBlocks (tryBlock func event ctx)).map finalPrep

/-- `True` exactly for the Python value `None`. -/
def isNull : Json → Bool
  | .null => true
  | _ => false

/-- Lines 70-73: `required_fields_found(supplied, required)`.  `supplied`
    may be `None` (modelled `none`) or a dict; `if supplied:` is Python
    truthiness (present and non-empty); the body compares
    `required.intersection(supplied) == required`. -/
def required_fields_found (supplied : Option Dict) (required : Finset String) :
    Bool :=
  match supplied with
  | some d =>
      if d.isEmpty then false
      else decide (required ∩ dictKeys d = required)
  | none => false

/-- The message of the `AttributeError` raised by `None.keys()`. -/
def noneKeysMsg : String :=
  "\x27NoneType\x27 object has no attribute \x27keys\x27"

/-- Lines 76-79: `require_valid_inputs(supplied, required)`.  When the
    check fails, line 78 evaluates `list(supplied.keys())`: for a dict
    this yields the key list and an `APIGException(msg, code=400)` is
    raised; for `supplied = None` it raises `AttributeError` instead. -/
def require_valid_inputs (supplied : Option Dict) (required : Finset String) :
    Except PyExc Unit :=
  if !required_fields_found supplied required then
    match supplied with
    | some d =>
        .error (.apig ("Invalid input parameters: " ++
                        pyListRepr (d.map Prod.fst)) 400)
    | none => .error (.attributeError noneKeysMsg)
  else .ok ()

/-- Python value returned by `optional_fields_found`: a set or `False`. -/
inductive PySetOrBool where
  | pySet (s : Finset String)
  | pyFalse
deriving DecidableEq

/-- Lines 82-85: `optional_fields_found(params, fields)`: if `params` is
    truthy, the set `fields.intersection(params)`; otherwise `False`. -/
def optional_fields_found (params : Option Dict) (fields : Finset String) :
    PySetOrBool :=
  match params with
  | some d =>
      if d.isEmpty then .pyFalse
      else .pySet (fields ∩ dictKeys d)
  | none => .pyFalse

/-- `True` exactly for `APIGException` values. -/
def isAPIGException : PyExc → Bool
  | .apig _ _ => true
  | _ => false

/-- C6: `required_fields_found(supplied, required)` returns true iff
    `supplied` is present (not `None`) and non-empty and every key in
    `required` is among `supplied`'s keys; extra keys in `supplied` are
    allowed, and absent or empty `supplied` yields false. -/
theorem c6_required_fields_found_iff (supplied : Option Dict)
    (required : Finset String) :
    required_fields_found supplied required = true ↔
      ∃ d, supplied = some d ∧ d ≠ [] ∧ ∀ k ∈ required, k ∈ dictKeys d := by
  cases supplied with
  | none => simp [required_fields_found]
  | some d =>
    by_cases hd : d.isEmpty
    · rw [List.isEmpty_iff] at hd
      subst hd
      simp [required_fields_found]
    · have hne : d ≠ [] := by
        intro h
        subst h
        simp at hd
      rw [required_fields_found, if_neg hd, decide_eq_true_iff,
        Finset.inter_eq_left]
      constructor
      · intro hsub
        exact ⟨d, rfl, hne, fun k hk => hsub hk⟩
      · rintro ⟨d2, hd2, _, hall⟩
        cases hd2
        intro k hk
        exact hall k hk

/-- C7 counterexample: with `supplied = None` and `required = {"a"}`,
    `required_fields_found` is false but `require_valid_inputs` raises an
    `AttributeError` (from `None.keys()` at line 78), not the
    `APIGException` with code 400 that the claim promises. -/
theorem c7_counterexample :
    required_fields_found none ({"a"} : Finset String) = false ∧
    require_valid_inputs none ({"a"} : Finset String) =
      .error (.attributeError noneKeysMsg) ∧
    isAPIGException (.attributeError noneKeysMsg) = false :=
  ⟨rfl, rfl, rfl⟩

/-- C7 (amended): when `supplied` is an actual dict and the required-field
    check fails, `require_valid_inputs` raises `APIGException` with code
    400 and message `"Invalid input parameters: {list of supplied keys}"`;
    when the check passes it returns without raising; but when `supplied`
    is absent (`None`), line 78's `supplied.keys()` raises an
    `AttributeError` instead of the promised `APIGException`. -/
theorem c7_require_valid_inputs (d : Dict) (required : Finset String) :
    (required_fields_found (some d) required = false →
       require_valid_inputs (some d) required =
         .error (.apig ("Invalid input parameters: " ++
                         pyListRepr (d.map Prod.fst)) 400)) ∧
    (required_fields_found (some d) required = true →
       require_valid_inputs (some d) required = .ok ()) ∧
    require_valid_inputs none required = .error (.attributeError noneKeysMsg) := by
  refine ⟨fun h => ?_, fun h => ?_, ?_⟩
  · rw [require_valid_inputs, h]
    rfl
  · rw [require_valid_inputs, h]
    rfl
  · rfl

/-- C7 witness: `require_valid_inputs({"a": 1}, {"a", "b"})` raises
    `APIGException("Invalid input parameters: [\x27a\x27]", code=400)`. -/
theorem c7_witness :
    require_valid_inputs (some [("a", Json.num 1)]) ({"a", "b"} : Finset String) =
      .error (.apig ("Invalid input parameters: " ++ pyListRepr ["a"]) 400) := by
  have h := (c7_require_valid_inputs [("a", Json.num 1)] ({"a", "b"} : Finset String)).1
  exact h (by decide)

/-- C8: `optional_fields_found(params, fields)` returns `False` exactly
    when `params` is absent or empty, and otherwise returns the set of
    names from `fields` that occur among `params`'s keys. -/
theorem c8_optional_fields_found (params : Option Dict) (fields : Finset String) :
    (optional_fields_found params fields = .pyFalse ↔
       params = none ∨ params = some []) ∧
    (∀ d, params = some d → d ≠ [] →
       ∃ s, optional_fields_found params fields = .pySet s ∧
         ∀ k, k ∈ s ↔ k ∈ fields ∧ k ∈ dictKeys d) := by
  constructor
  · cases params with
    | none => simp [optional_fields_found]
    | some d =>
      by_cases hd : d.isEmpty
      · rw [List.isEmpty_iff] at hd
        subst hd
        simp [optional_fields_found]
      · have hne : d ≠ [] := by
          intro h
          subst h
          simp at hd
        simp [optional_fields_found, if_neg hd, hne]
  · rintro d rfl hne
    have hd : d.isEmpty = false := by
      cases d with
      | nil => exact absurd rfl hne
      | cons a t => rfl
    rw [optional_fields_found, hd]
    exact ⟨fields ∩ dictKeys d, by rw [if_neg (by simp)], fun k => Finset.mem_inter⟩

/-- C8 witness: `optional_fields_found({"x": 1}, {"x", "y"})` is a set
    containing exactly `"x"`. -/
theorem c8_witness :
    ∃ s, optional_fields_found (some [("x", Json.num 1)])
           ({"x", "y"} : Finset String) = .pySet s ∧
      ∀ k, k ∈ s ↔ k ∈ ({"x", "y"} : Finset String) ∧
        k ∈ dictKeys [("x", Json.num 1)] :=
  (c8_optional_fields_found (some [("x", Json.num 1)])
      ({"x", "y"} : Finset String)).2 [("x", Json.num 1)] rfl (by simp)

/-! ## JSON serialization

`json_dumps` is imported from `tlx.dynamodb` (line 3), whose source is
not part of this repository snapshot; the spec only requires that the
body dict is serialized to a JSON string and that serializing then
parsing round-trips.  The serializer and parser below are therefore
modelled from the spec. -/

/-- Escape one character for a JSON string literal: `"` and `\` get a
    backslash, everything else is emitted as itself. -/
def escapeChar (c : Char) : List Char :=
  if c = '"' then ['\\', '"']
  else if c = '\\' then ['\\', '\\']
  else [c]

/-- Escape the characters of a JSON string literal. -/
def escapeChars : List Char → List Char
  | [] => []
  | c :: cs => escapeChar c ++ escapeChars cs

/-- The digit character for `n < 10`. -/
def digitChar (n : Nat) : Char :=
  Char.ofNat (48 + n)

/-- Decimal digits of a natural number, most significant first, with a
    fuel bound (`fuel > n` always suffices). -/
def natCharsAux : Nat → Nat → List Char
  | 0, _ => []
  | fuel + 1, n =>
    if n < 10 then [digitChar n]
    else natCharsAux fuel (n / 10) ++ [digitChar (n % 10)]

/-- Decimal digits of a natural number, most significant first. -/
def natChars (n : Nat) : List Char :=
  natCharsAux (n + 1) n

/-- Decimal representation of an integer. -/
def intChars (n : Int) : List Char :=
  if n < 0 then '-' :: natChars (-n).toNat else natChars n.toNat

/-- The characters of the keyword `null`. -/
def nullChars : List Char := ['n', 'u', 'l', 'l']

/-- The characters of the keyword `true`. -/
def trueChars : List Char := ['t', 'r', 'u', 'e']

/-- The characters of the keyword `false`. -/
def falseChars : List Char := ['f', 'a', 'l', 's', 'e']

mutual

/-- Modelled from the spec: `json_dumps` on a JSON value, as characters
    (`null`/`true`/`false`, decimal numbers, quoted strings, `[...]`
    arrays and `\x7b...\x7d` objects with comma separators). -/
def dumpJson : Json → List Char
  | .null => nullChars
  | .bool true => trueChars
  | .bool false => falseChars
  | .num n => intChars n
  | .str s => '"' :: (escapeChars s.data ++ ['"'])
  | .arr xs => '[' :: (dumpElems xs ++ [']'])
  | .obj fs => '\x7b' :: (dumpFields fs ++ ['\x7d'])

/-- Array elements, comma-separated. -/
def dumpElems : List Json → List Char
  | [] => []
  | [x] => dumpJson x
  | x :: y :: xs => dumpJson x ++ ',' :: dumpElems (y :: xs)

/-- Object entries `"key":value`, comma-separated. -/
def dumpFields : List (String × Json) → List Char
  | [] => []
  | [(k, v)] => '"' :: (escapeChars k.data ++ '"' :: ':' :: dumpJson v)
  | (k, v) :: f :: fs =>
      '"' :: (escapeChars k.data ++ '"' :: ':' :: dumpJson v) ++
        ',' :: dumpFields (f :: fs)

end

/-- Modelled from the spec: the JSON encoding of a value as a string. -/
def json_dumps (j : Json) : String :=
  String.mk (dumpJson j)

/-- Parse the rest of a JSON string literal; the flag records whether the
    previous character was an unconsumed backslash (escape state). -/
def parseStringBodyAux : Bool → List Char → Option (List Char × List Char)
  | _, [] => none
  | true, c :: rest => (parseStringBodyAux false rest).map fun p => (c :: p.1, p.2)
  | false, c :: rest =>
    if c = '"' then some ([], rest)
    else if c = '\\' then parseStringBodyAux true rest
    else (parseStringBodyAux false rest).map fun p => (c :: p.1, p.2)

/-- Parse the rest of a JSON string literal (after the opening quote) up
    to the closing quote; a backslash makes the next character literal. -/
def parseStringBody (cs : List Char) : Option (List Char × List Char) :=
  parseStringBodyAux false cs

/-- Fold decimal digits into an accumulator, stopping at the first
    non-digit. -/
def parseDigits : List Char → Nat → Nat × List Char
  | [], acc => (acc, [])
  | c :: rest, acc =>
      if c.isDigit then parseDigits rest (acc * 10 + (c.toNat - 48))
      else (acc, c :: rest)

/-- Does the input start with a decimal digit? -/
def headDigit : List Char → Bool
  | [] => false
  | c :: _ => c.isDigit

/-- Parse a natural number (at least one digit). -/
def parseNat (cs : List Char) : Option (Nat × List Char) :=
  if headDigit cs then some (parseDigits cs 0) else none

/-- Parse an integer (optional leading minus sign). -/
def parseInt (cs : List Char) : Option (Int × List Char) :=
  match cs with
  | [] => none
  | c :: rest =>
    if c = '-' then (parseNat rest).map fun p => (-(p.1 : Int), p.2)
    else (parseNat (c :: rest)).map fun p => ((p.1 : Int), p.2)

mutual

/-- Modelled from the spec: recursive-descent JSON value parser, with a
    fuel bound on nesting. -/
def parseVal : Nat → List Char → Option (Json × List Char)
  | 0, _ => none
  | fuel + 1, cs =>
    match cs with
    | [] => none
    | c :: rest =>
      if c = '"' then
        (parseStringBody rest).map fun p => (Json.str (String.mk p.1), p.2)
      else if c = '[' then
        (parseElems fuel rest).map fun p => (Json.arr p.1, p.2)
      else if c = '\x7b' then
        (parseFields fuel rest).map fun p => (Json.obj p.1, p.2)
      else if c = 'n' then
        match rest with
        | 'u' :: 'l' :: 'l' :: rest2 => some (Json.null, rest2)
        | _ => none
      else if c = 't' then
        match rest with
        | 'r' :: 'u' :: 'e' :: rest2 => some (Json.bool true, rest2)
        | _ => none
      else if c = 'f' then
        match rest with
        | 'a' :: 'l' :: 's' :: 'e' :: rest2 => some (Json.bool false, rest2)
        | _ => none
      else (parseInt (c :: rest)).map fun p => (Json.num p.1, p.2)

/-- Parse array elements up to and including the closing bracket. -/
def parseElems : Nat → List Char → Option (List Json × List Char)
  | 0, _ => none
  | fuel + 1, cs =>
    match cs with
    | [] => none
    | c :: rest =>
      if c = ']' then some ([], rest)
      else
        match parseVal fuel (c :: rest) with
        | some (v, ',' :: rest2) =>
            (parseElems fuel rest2).map fun p => (v :: p.1, p.2)
        | some (v, ']' :: rest2) => some ([v], rest2)
        | _ => none

/-- Parse object entries up to and including the closing brace. -/
def parseFields : Nat → List Char → Option (List (String × Json) × List Char)
  | 0, _ => none
  | fuel + 1, cs =>
    match cs with
    | [] => none
    | c :: rest =>
      if c = '\x7d' then some ([], rest)
      else if c = '"' then
        match parseStringBody rest with
        | some (k, ':' :: rest2) =>
          match parseVal fuel rest2 with
          | some (v, ',' :: rest3) =>
              (parseFields fuel rest3).map fun p => ((String.mk k, v) :: p.1, p.2)
          | some (v, '\x7d' :: rest3) => some ([(String.mk k, v)], rest3)
          | _ => none
        | _ => none
      else none

end

/-- Modelled from the spec: parse a complete JSON string. -/
def json_parse (s : String) : Option Json :=
  match parseVal (s.data.length + 1) s.data with
  | some (j, []) => some j
  | _ => none

lemma parseStringBody_escape (s rest : List Char) :
    parseStringBody (escapeChars s ++ '"' :: rest) = some (s, rest) := by
  induction s with
  | nil => simp [escapeChars, parseStringBody, parseStringBodyAux]
  | cons c cs ih =>
    rw [parseStringBody] at *
    by_cases h1 : c = '"'
    · subst h1
      simp [escapeChars, escapeChar, parseStringBodyAux, ih]
    · by_cases h2 : c = '\\'
      · subst h2
        simp [escapeChars, escapeChar, parseStringBodyAux, ih]
      · simp [escapeChars, escapeChar, h1, h2, parseStringBodyAux, ih]

lemma digitChar_isDigit {n : Nat} (h : n < 10) :
    (digitChar n).isDigit = true := by
  interval_cases n <;> decide

lemma digitChar_toNat {n : Nat} (h : n < 10) :
    (digitChar n).toNat = 48 + n := by
  interval_cases n <;> decide

lemma ne_of_isDigit {c x : Char} (h : c.isDigit = true)
    (hx : x.isDigit = false) : c ≠ x := by
  intro he
  rw [he, hx] at h
  exact Bool.noConfusion h

lemma natCharsAux_head {fuel n : Nat} (h : n < fuel) :
    ∃ c t, natCharsAux fuel n = c :: t ∧ c.isDigit = true := by
  induction fuel generalizing n with
  | zero => omega
  | succ fuel ih =>
    by_cases h10 : n < 10
    · exact ⟨digitChar n, [], by simp [natCharsAux, h10], digitChar_isDigit h10⟩
    · obtain ⟨c, t, hct, hdig⟩ := ih (n := n / 10) (by omega)
      exact ⟨c, t ++ [digitChar (n % 10)],
        by simp [natCharsAux, h10, hct], hdig⟩

lemma parseDigits_noDigit {rest : List Char} (h : headDigit rest = false)
    (acc : Nat) : parseDigits rest acc = (acc, rest) := by
  cases rest with
  | nil => rfl
  | cons c t =>
    rw [headDigit] at h
    simp [parseDigits, h]

lemma parseDigits_natCharsAux {fuel n : Nat} (h : n < fuel)
    (acc : Nat) (rest : List Char) :
    parseDigits (natCharsAux fuel n ++ rest) acc =
      parseDigits rest (acc * 10 ^ (natCharsAux fuel n).length + n) := by
  induction fuel generalizing n acc rest with
  | zero => omega
  | succ fuel ih =>
    by_cases h10 : n < 10
    · rw [natCharsAux, if_pos h10]
      simp [parseDigits, digitChar_isDigit h10, digitChar_toNat h10]
    · rw [natCharsAux, if_neg h10]
      rw [List.append_assoc, ih (by omega)]
      simp only [parseDigits, digitChar_isDigit (Nat.mod_lt n (by omega)),
        if_pos, digitChar_toNat (Nat.mod_lt n (by omega))]
      have harith :
          (acc * 10 ^ (natCharsAux fuel (n / 10)).length + n / 10) * 10 +
              (48 + n % 10 - 48) =
            acc * 10 ^ (natCharsAux fuel (n / 10)).length.succ + n := by
        have hmod : n / 10 * 10 + n % 10 = n := by omega
        rw [pow_succ]
        ring_nf
        omega
      rw [harith]
      have hlen : (natCharsAux fuel (n / 10) ++ [digitChar (n % 10)]).length =
          (natCharsAux fuel (n / 10)).length.succ := by
        simp
      rw [hlen]
      simp

lemma parseNat_natChars {n : Nat} {rest : List Char}
    (h : headDigit rest = false) :
    parseNat (natChars n ++ rest) = some (n, rest) := by
  obtain ⟨c, t, hct, hdig⟩ := @natCharsAux_head (n + 1) n (by omega)
  rw [natChars] at *
  rw [parseNat]
  have hhead : headDigit (natCharsAux (n + 1) n ++ rest) = true := by
    rw [hct]
    simp [headDigit, hdig]
  rw [hhead]
  simp only [if_pos]
  rw [parseDigits_natCharsAux (by omega), parseDigits_noDigit h]
  simp

lemma intChars_head (n : Int) :
    ∃ c t, intChars n = c :: t ∧ (c = '-' ∨ c.isDigit = true) := by
  by_cases hn : n < 0
  · exact ⟨'-', natChars (-n).toNat, by rw [intChars, if_pos hn], Or.inl rfl⟩
  · obtain ⟨c, t, hct, hdig⟩ :=
      @natCharsAux_head (n.toNat + 1) n.toNat (by omega)
    exact ⟨c, t, by rw [intChars, if_neg hn, natChars, hct], Or.inr hdig⟩

lemma parseInt_intChars {n : Int} {rest : List Char}
    (h : headDigit rest = false) :
    parseInt (intChars n ++ rest) = some (n, rest) := by
  by_cases hn : n < 0
  · rw [intChars, if_pos hn]
    rw [List.cons_append, parseInt]
    simp only [if_pos]
    rw [parseNat_natChars h]
    simp
    omega
  · rw [intChars, if_neg hn]
    obtain ⟨c, t, hct, hdig⟩ :=
      @natCharsAux_head (n.toNat + 1) n.toNat (by omega)
    rw [natChars] at *
    rw [hct, List.cons_append, parseInt]
    rw [if_neg (ne_of_isDigit hdig (by decide))]
    rw [← List.cons_append, ← hct, ← natChars, parseNat_natChars h]
    simp
    omega

/-- The first character a serialized JSON value can start with is never a
    closing bracket, closing brace or comma. -/
lemma dumpJson_head (j : Json) :
    ∃ c t, dumpJson j = c :: t ∧ c ≠ ']' ∧ c ≠ '\x7d' ∧ c ≠ ',' := by
  cases j
  case num n =>
    obtain ⟨c, t, hct, hprop⟩ := intChars_head n
    refine ⟨c, t, by rw [show dumpJson (Json.num n) = intChars n from rfl, hct],
      ?_, ?_, ?_⟩ <;>
      rcases hprop with h | h
    · subst h; decide
    · exact ne_of_isDigit h (by decide)
    · subst h; decide
    · exact ne_of_isDigit h (by decide)
    · subst h; decide
    · exact ne_of_isDigit h (by decide)
  case bool b =>
    cases b <;> exact ⟨_, _, rfl, by decide, by decide, by decide⟩
  all_goals exact ⟨_, _, rfl, by decide, by decide, by decide⟩

mutual

/-- Fuel needed by `parseVal` to parse the serialization of `j`. -/
def needJ : Json → Nat
  | .null => 1
  | .bool _ => 1
  | .num _ => 1
  | .str _ => 1
  | .arr xs => needL xs + 1
  | .obj fs => needF fs + 1

/-- Fuel needed by `parseElems` on a serialized element list. -/
def needL : List Json → Nat
  | [] => 1
  | x :: xs => max (needJ x) (needL xs) + 1

/-- Fuel needed by `parseFields` on a serialized field list. -/
def needF : List (String × Json) → Nat
  | [] => 1
  | (_, v) :: fs => max (needJ v) (needF fs) + 1

end

lemma needJ_pos (j : Json) : 1 ≤ needJ j := by
  cases j <;> simp [needJ]

lemma needL_pos (xs : List Json) : 1 ≤ needL xs := by
  cases xs <;> simp [needL]

lemma needF_pos (fs : List (String × Json)) : 1 ≤ needF fs := by
  cases fs with
  | nil => simp [needF]
  | cons f fs => obtain ⟨k, v⟩ := f; simp [needF]

lemma stringMkData (s : String) : String.mk s.data = s := rfl

/-- With enough fuel, parsing a serialized JSON value, element list or
    field list consumes exactly the serialized characters and returns the
    original value. -/
theorem parse_dump (fuel : Nat) :
    (∀ j rest, needJ j ≤ fuel → headDigit rest = false →
       parseVal fuel (dumpJson j ++ rest) = some (j, rest)) ∧
    (∀ xs rest, needL xs ≤ fuel →
       parseElems fuel (dumpElems xs ++ ']' :: rest) = some (xs, rest)) ∧
    (∀ fs rest, needF fs ≤ fuel →
       parseFields fuel (dumpFields fs ++ '\x7d' :: rest) = some (fs, rest)) := by
  induction fuel with
  | zero =>
    exact ⟨fun j rest hs _ => absurd hs (by have := needJ_pos j; omega),
           fun xs rest hs => absurd hs (by have := needL_pos xs; omega),
           fun fs rest hs => absurd hs (by have := needF_pos fs; omega)⟩
  | succ fuel ih =>
    obtain ⟨ih1, ih2, ih3⟩ := ih
    refine ⟨?_, ?_, ?_⟩
    · intro j rest hs hrest
      cases j with
      | null => simp [dumpJson, nullChars, parseVal]
      | bool b => cases b <;> simp [dumpJson, trueChars, falseChars, parseVal]
      | str s =>
        have hsb := parseStringBody_escape s.data rest
        simp only [dumpJson, List.cons_append, List.append_assoc,
          List.singleton_append]
        simp [parseVal, hsb, stringMkData]
      | num n =>
        obtain ⟨c, t, hct, hprop⟩ := intChars_head n
        have hpi := @parseInt_intChars n rest hrest
        have hd : dumpJson (Json.num n) = intChars n := rfl
        rw [hct] at hpi
        rw [List.cons_append] at hpi
        rw [hd, hct, List.cons_append]
        have hcs : c ≠ '"' ∧ c ≠ '[' ∧ c ≠ '\x7b' ∧ c ≠ 'n' ∧ c ≠ 't' ∧
            c ≠ 'f' := by
          rcases hprop with h | h
          · subst h
            exact ⟨by decide, by decide, by decide, by decide, by decide,
              by decide⟩
          · exact ⟨ne_of_isDigit h (by decide), ne_of_isDigit h (by decide),
              ne_of_isDigit h (by decide), ne_of_isDigit h (by decide),
              ne_of_isDigit h (by decide), ne_of_isDigit h (by decide)⟩
        obtain ⟨h1, h2, h3, h4, h5, h6⟩ := hcs
        simp [parseVal, h1, h2, h3, h4, h5, h6, hpi]
      | arr xs =>
        have hlen : needL xs ≤ fuel := by
          rw [show needJ (Json.arr xs) = needL xs + 1 from rfl] at hs
          omega
        have he := ih2 xs rest hlen
        simp only [dumpJson, List.cons_append, List.append_assoc,
          List.singleton_append]
        simp [parseVal, he]
      | obj fs =>
        have hlen : needF fs ≤ fuel := by
          rw [show needJ (Json.obj fs) = needF fs + 1 from rfl] at hs
          omega
        have he := ih3 fs rest hlen
        simp only [dumpJson, List.cons_append, List.append_assoc,
          List.singleton_append]
        simp [parseVal, he]
    · intro xs rest hs
      cases xs with
      | nil => simp [dumpElems, parseElems]
      | cons x xs2 =>
        obtain ⟨c, t, hct, hc1, hc2, hc3⟩ := dumpJson_head x
        have hmax : max (needJ x) (needL xs2) ≤ fuel := by
          rw [needL] at hs
          omega
        have hx : needJ x ≤ fuel := le_trans (le_max_left _ _) hmax
        have hxs2 : needL xs2 ≤ fuel := le_trans (le_max_right _ _) hmax
        cases xs2 with
        | nil =>
          have hv := ih1 x (']' :: rest) hx rfl
          rw [hct, List.cons_append] at hv
          rw [show dumpElems [x] = dumpJson x from rfl, hct, List.cons_append]
          simp [parseElems, hc1, hv]
        | cons y ys =>
          have hv := ih1 x (',' :: (dumpElems (y :: ys) ++ ']' :: rest)) hx rfl
          have he := ih2 (y :: ys) rest hxs2
          rw [hct, List.cons_append] at hv
          rw [show dumpElems (x :: y :: ys) =
                dumpJson x ++ ',' :: dumpElems (y :: ys) from rfl,
            hct]
          simp only [List.cons_append, List.append_assoc]
          simp [parseElems, hc1, hv, he]
    · intro fs rest hs
      cases fs with
      | nil => simp [dumpFields, parseFields]
      | cons kv fs2 =>
        obtain ⟨k, v⟩ := kv
        have hmax : max (needJ v) (needF fs2) ≤ fuel := by
          rw [needF] at hs
          omega
        have hx : needJ v ≤ fuel := le_trans (le_max_left _ _) hmax
        have hfs2 : needF fs2 ≤ fuel := le_trans (le_max_right _ _) hmax
        cases fs2 with
        | nil =>
          have hv := ih1 v ('\x7d' :: rest) hx rfl
          have hsb := parseStringBody_escape k.data
            (':' :: (dumpJson v ++ '\x7d' :: rest))
          rw [show dumpFields [(k, v)] =
                '"' :: (escapeChars k.data ++ '"' :: ':' :: dumpJson v)
              from rfl]
          simp only [List.cons_append, List.append_assoc]
          simp [parseFields, hsb, hv, stringMkData]
        | cons f2 fs3 =>
          have hv := ih1 v
            (',' :: (dumpFields (f2 :: fs3) ++ '\x7d' :: rest)) hx rfl
          have he := ih3 (f2 :: fs3) rest hfs2
          have hsb := parseStringBody_escape k.data
            (':' :: (dumpJson v ++
              ',' :: (dumpFields (f2 :: fs3) ++ '\x7d' :: rest)))
          rw [show dumpFields ((k, v) :: f2 :: fs3) =
                '"' :: (escapeChars k.data ++ '"' :: ':' :: dumpJson v) ++
                  ',' :: dumpFields (f2 :: fs3) from rfl]
          simp only [List.cons_append, List.append_assoc]
          simp [parseFields, hsb, hv, he, stringMkData]

lemma dumpJson_length_pos (j : Json) : 1 ≤ (dumpJson j).length := by
  obtain ⟨c, t, hct, -, -, -⟩ := dumpJson_head j
  rw [hct]
  simp

mutual

theorem needJ_le (j : Json) : needJ j ≤ (dumpJson j).length := by
  cases j with
  | null => simp [needJ, dumpJson, nullChars]
  | bool b => cases b <;> simp [needJ, dumpJson, trueChars, falseChars]
  | num n =>
    have := dumpJson_length_pos (Json.num n)
    rw [needJ]
    omega
  | str s => simp [needJ, dumpJson]
  | arr xs =>
    have h := needL_le xs
    rw [needJ, dumpJson]
    simp only [List.length_cons, List.length_append, List.length_singleton]
    omega
  | obj fs =>
    have h := needF_le fs
    rw [needJ, dumpJson]
    simp only [List.length_cons, List.length_append, List.length_singleton]
    omega

theorem needL_le (xs : List Json) : needL xs ≤ (dumpElems xs).length + 1 := by
  cases xs with
  | nil => simp [needL, dumpElems]
  | cons x xs2 =>
    have hx := needJ_le x
    have hxp := dumpJson_length_pos x
    cases xs2 with
    | nil =>
      rw [needL, needL, show dumpElems [x] = dumpJson x from rfl]
      omega
    | cons y ys =>
      have hys := needL_le (y :: ys)
      rw [needL, show dumpElems (x :: y :: ys) =
            dumpJson x ++ ',' :: dumpElems (y :: ys) from rfl]
      simp only [List.length_append, List.length_cons]
      omega

theorem needF_le (fs : List (String × Json)) :
    needF fs ≤ (dumpFields fs).length + 1 := by
  cases fs with
  | nil => simp [needF, dumpFields]
  | cons kv fs2 =>
    obtain ⟨k, v⟩ := kv
    have hv := needJ_le v
    cases fs2 with
    | nil =>
      rw [needF, needF, show dumpFields [(k, v)] =
            '"' :: (escapeChars k.data ++ '"' :: ':' :: dumpJson v) from rfl]
      simp only [List.length_cons, List.length_append]
      omega
    | cons f2 fs3 =>
      have hfs := needF_le (f2 :: fs3)
      rw [needF, show dumpFields ((k, v) :: f2 :: fs3) =
            '"' :: (escapeChars k.data ++ '"' :: ':' :: dumpJson v) ++
              ',' :: dumpFields (f2 :: fs3) from rfl]
      simp only [List.length_cons, List.length_append]
      omega

end

/-- Serializing any JSON value and parsing the result yields the
    value back. -/
theorem json_parse_dumps (j : Json) : json_parse (json_dumps j) = some j := by
  have hfuel : needJ j ≤ (dumpJson j).length + 1 :=
    le_trans (needJ_le j) (by omega)
  have h := (parse_dump ((dumpJson j).length + 1)).1 j [] hfuel rfl
  rw [List.append_nil] at h
  have hd : (json_dumps j).data = dumpJson j := rfl
  rw [json_parse, hd, h]

/-- The body dict as a JSON value, right before serialization. -/
def bodyJson (st : ResponseState) : Json :=
  .obj (bodyFields st)

/-- The proxy response envelope finally returned: `statusCode` plus the
    `json_dumps`-serialized body string (line 64). -/
structure Envelope where
  statusCode : StatusCode
  body : String

/-- Lines 26-66: the full `wrapper`, including the serialization of the
    body at line 64.  A `.error` outcome is the wrapper itself raising. -/
def wrapper {Ctx : Type} (func : Dict → Ctx → HandlerResult)
    (event : Dict) (ctx : Ctx) : Except PyExc Envelope :=
  (wrapperRun func event ctx).map fun st =>
    { statusCode := st.statusCode, body := json_dumps (bodyJson st) }

/-- A concrete well-formed event for witnesses: all three keys that the
    debug-log format string of line 45 reads are present. -/
def ev0 : Dict :=
  [("resource", Json.str "/r"), ("queryStringParameters", Json.null),
   ("body", Json.null)]

/-- C1 counterexample: a handler returning `7` yields an envelope whose
    `statusCode` is the string `"200"` (line 47), not the integer `200`
    the claim asserts. -/
theorem c1_counterexample :
    wrapperRun (fun _ _ => HandlerResult.ret (Json.num 7)) ev0 () =
      .ok { statusCode := .str "200", message := "Success",
            response := some (.num 7) } ∧
    StatusCode.str "200" ≠ StatusCode.int 200 :=
  ⟨rfl, by decide⟩

/-- C1 (amended): when the inner handler returns `v` without raising (on
    an event carrying the three logged keys), the envelope's statusCode is
    the string `"200"` (not the integer 200), the body message is
    `"Success"`, and the body's `response` field equals `v` unless `v` is
    `None`, in which case it is omitted. -/
theorem c1_success_envelope {Ctx : Type} (func : Dict → Ctx → HandlerResult)
    (event : Dict) (ctx : Ctx) (jr jq jb v : Json)
    (hr : dictGet event "resource" = some jr)
    (hq : dictGet event "queryStringParameters" = some jq)
    (hb : dictGet event "body" = some jb)
    (hf : func event ctx = .ret v) :
    wrapperRun func event ctx = .ok
      { statusCode := .str "200", message := "Success",
        response := if isNull v then none else some v } := by
  unfold wrapperRun tryBlock
  rw [hr, hq, hb, hf]
  cases v <;> rfl

/-- C1 witness: a handler returning `None` yields a `"200"` envelope with
    the `response` key deleted. -/
theorem c1_witness :
    wrapperRun (fun _ _ => HandlerResult.ret Json.null) ev0 () =
      .ok { statusCode := .str "200", message := "Success",
            response := none } := by
  have h := c1_success_envelope (fun _ _ => HandlerResult.ret Json.null) ev0 ()
    (Json.str "/r") Json.null Json.null Json.null rfl rfl rfl rfl
  simpa using h

/-- C2 counterexample: `APIGException` with `code=0` is falsy at
    line 39's `if code:`, so the statusCode is left at the previously-set
    string `"200"` rather than the raised code 0. -/
theorem c2_counterexample :
    wrapperRun (fun _ _ => HandlerResult.raise (PyExc.apig "boom" 0)) ev0 () =
      .ok { statusCode := .str "200", message := "Error: boom",
            response := some (.obj []) } ∧
    StatusCode.str "200" ≠ StatusCode.int 0 :=
  ⟨rfl, by decide⟩

/-- C2 (amended): when the inner handler raises
    `APIGException(message=m, code=c)` (default `c=500`), the envelope's
    body message is `"Error: {m}"` and its statusCode equals `c` whenever
    `c` is truthy (nonzero, which includes the default 500); when `c = 0`
    the `if code:` guard of line 39 leaves statusCode at the string
    `"200"` set before the handler ran. -/
theorem c2_domain_error {Ctx : Type} (func : Dict → Ctx → HandlerResult)
    (event : Dict) (ctx : Ctx) (jr jq jb : Json) (m : String) (c : Int)
    (hr : dictGet event "resource" = some jr)
    (hq : dictGet event "queryStringParameters" = some jq)
    (hb : dictGet event "body" = some jb)
    (hf : func event ctx = .raise (.apig m c)) :
    wrapperRun func event ctx = .ok
      { statusCode := if c ≠ 0 then .int c else .str "200",
        message := "Error: " ++ m, response := some (.obj []) } := by
  unfold wrapperRun tryBlock
  rw [hr, hq, hb, hf]
  by_cases hc : c = 0 <;>
    simp [exceptBlocks, setup_error_response, finalPrep, hc, defaultResponse,
      Except.map]

/-- C2 witness: an `APIGException` raised with the default code yields
    statusCode 500 and message `"Error: boom"`. -/
theorem c2_witness :
    wrapperRun (fun _ _ => HandlerResult.raise (APIGException.mkDefault "boom"))
        ev0 () =
      .ok { statusCode := .int 500, message := "Error: boom",
            response := some (.obj []) } := by
  have h := c2_domain_error
    (fun _ _ => HandlerResult.raise (APIGException.mkDefault "boom")) ev0 ()
    (Json.str "/r") Json.null Json.null "boom" 500 rfl rfl rfl rfl
  simpa using h

/-- C3: when the inner handler raises anything that is neither
    `APIGException` nor a JSON-decode error, line 58 re-raises it wrapped
    in `Exception(e)` unconditionally; the wrapper never returns an
    envelope, and line 59 (the generic-response formatting) is dead. -/
theorem c3_generic_reraise {Ctx : Type} (func : Dict → Ctx → HandlerResult)
    (event : Dict) (ctx : Ctx) (jr jq jb : Json) (e : PyExc)
    (hr : dictGet event "resource" = some jr)
    (hq : dictGet event "queryStringParameters" = some jq)
    (hb : dictGet event "body" = some jb)
    (hf : func event ctx = .raise e)
    (hna : isAPIGException e = false)
    (hnj : e ≠ .jsonDecodeError) :
    wrapper func event ctx = .error (.exceptionOf e) ∧
    ∀ env, wrapper func event ctx ≠ .ok env := by
  have hmain : wrapper func event ctx = .error (.exceptionOf e) := by
    unfold wrapper wrapperRun tryBlock
    rw [hr, hq, hb, hf]
    cases e with
    | apig m c => simp [isAPIGException] at hna
    | jsonDecodeError => exact absurd rfl hnj
    | keyError k => rfl
    | attributeError m => rfl
    | exceptionOf e2 => rfl
    | other m => rfl
  refine ⟨hmain, fun env h => ?_⟩
  rw [hmain] at h
  exact Except.noConfusion h

/-- C3 witness: a handler raising a generic exception makes the wrapper
    re-raise `Exception(e)` instead of producing any envelope. -/
theorem c3_witness :
    wrapper (fun _ _ => HandlerResult.raise (PyExc.other "boom")) ev0 () =
      .error (.exceptionOf (.other "boom")) :=
  (c3_generic_reraise (fun _ _ => HandlerResult.raise (PyExc.other "boom"))
    ev0 () (Json.str "/r") Json.null Json.null (PyExc.other "boom")
    rfl rfl rfl rfl rfl (by decide)).1

/-- C4: when the inner handler raises a JSON-decode error, the body
    message is exactly `"Input data is not JSON"` and the statusCode is
    left untouched by `setup_error_response` (no code is passed), i.e. it
    stays at the prior value — which at that point is always the string
    `"200"` set at line 47 before the handler was invoked. -/
theorem c4_json_decode_error {Ctx : Type} (func : Dict → Ctx → HandlerResult)
    (event : Dict) (ctx : Ctx) (jr jq jb : Json)
    (hr : dictGet event "resource" = some jr)
    (hq : dictGet event "queryStringParameters" = some jq)
    (hb : dictGet event "body" = some jb)
    (hf : func event ctx = .raise .jsonDecodeError) :
    wrapperRun func event ctx = .ok
      { statusCode := .str "200", message := "Input data is not JSON",
        response := some (.obj []) } := by
  unfold wrapperRun tryBlock
  rw [hr, hq, hb, hf]
  rfl

/-- C4 witness: a concrete JSON-decode failure envelope. -/
theorem c4_witness :
    wrapperRun (fun _ _ => HandlerResult.raise PyExc.jsonDecodeError) ev0 () =
      .ok { statusCode := .str "200", message := "Input data is not JSON",
            response := some (.obj []) } :=
  c4_json_decode_error (fun _ _ => HandlerResult.raise PyExc.jsonDecodeError)
    ev0 () (Json.str "/r") Json.null Json.null rfl rfl rfl rfl

/-- C5 counterexample: on the `APIGException` path the handler produced
    no return value, yet the serialized body still carries the `response`
    key with the default `{}` — line 49 never ran, so the default
    `"response": {}` (line 32) survives the `is None` check of line 62. -/
theorem c5_counterexample :
    wrapperRun (fun _ _ => HandlerResult.raise (PyExc.apig "boom" 403)) ev0 () =
      .ok { statusCode := .int 403, message := "Error: boom",
            response := some (.obj []) } ∧
    dictGet
      (bodyFields
        { statusCode := StatusCode.int 403, message := "Error: boom",
          response := some (Json.obj []) })
      "response" = some (Json.obj []) :=
  ⟨rfl, rfl⟩

/-- C5 (amended): every envelope body has the `message` key; the
    `response` key is present iff either the handler returned a non-`None`
    value (and then equals it), or the handler raised a handled exception
    (`APIGException` or JSON-decode), in which case it equals the default
    empty object `{}`. -/
theorem c5_body_keys {Ctx : Type} (func : Dict → Ctx → HandlerResult)
    (event : Dict) (ctx : Ctx) (st : ResponseState)
    (h : wrapperRun func event ctx = .ok st) :
    dictGet (bodyFields st) "message" = some (.str st.message) ∧
    ((∃ v, func event ctx = .ret v ∧
        dictGet (bodyFields st) "response" =
          if isNull v then none else some v) ∨
     (∃ e, func event ctx = .raise e ∧
        dictGet (bodyFields st) "response" = some (.obj []))) := by
  refine ⟨rfl, ?_⟩
  unfold wrapperRun tryBlock at h
  cases hr : dictGet event "resource" with
  | none =>
    rw [hr] at h
    simp [exceptBlocks, Except.map] at h
  | some jr =>
  rw [hr] at h
  cases hq : dictGet event "queryStringParameters" with
  | none =>
    rw [hq] at h
    simp [exceptBlocks, Except.map] at h
  | some jq =>
  rw [hq] at h
  cases hb : dictGet event "body" with
  | none =>
    rw [hb] at h
    simp [exceptBlocks, Except.map] at h
  | some jb =>
  rw [hb] at h
  cases hf : func event ctx with
  | ret v =>
    rw [hf] at h
    left
    refine ⟨v, rfl, ?_⟩
    simp only [exceptBlocks, Except.map, Except.ok.injEq] at h
    subst h
    cases v <;> rfl
  | raise e =>
    rw [hf] at h
    cases e with
    | apig m c =>
      right
      refine ⟨.apig m c, rfl, ?_⟩
      simp only [exceptBlocks, setup_error_response, Except.map,
        Except.ok.injEq] at h
      by_cases hc : c = 0
      · rw [if_neg (by simp [hc])] at h
        subst h
        rfl
      · rw [if_pos hc] at h
        subst h
        rfl
    | jsonDecodeError =>
      right
      refine ⟨.jsonDecodeError, rfl, ?_⟩
      simp only [exceptBlocks, setup_error_response, Except.map,
        Except.ok.injEq] at h
      subst h
      rfl
    | keyError k => simp [exceptBlocks, Except.map] at h
    | attributeError m => simp [exceptBlocks, Except.map] at h
    | exceptionOf e2 => simp [exceptBlocks, Except.map] at h
    | other m => simp [exceptBlocks, Except.map] at h

/-- C5 witness: for a handler returning the number 7, the body has both
    keys, with `response = 7`. -/
theorem c5_witness :
    dictGet
      (bodyFields
        { statusCode := StatusCode.str "200", message := "Success",
          response := some (Json.num 7) })
      "message" = some (.str "Success") ∧
    ((∃ v, (fun (_ : Dict) (_ : Unit) => HandlerResult.ret (Json.num 7)) ev0 () =
          .ret v ∧
        dictGet
          (bodyFields
            { statusCode := StatusCode.str "200", message := "Success",
              response := some (Json.num 7) })
          "response" = if isNull v then none else some v) ∨
     (∃ e, (fun (_ : Dict) (_ : Unit) => HandlerResult.ret (Json.num 7)) ev0 () =
          .raise e ∧
        dictGet
          (bodyFields
            { statusCode := StatusCode.str "200", message := "Success",
              response := some (Json.num 7) })
          "response" = some (.obj []))) :=
  c5_body_keys (fun _ _ => HandlerResult.ret (Json.num 7)) ev0 ()
    { statusCode := StatusCode.str "200", message := "Success",
      response := some (Json.num 7) } rfl

/-- C9: the envelope's `body` is the `json_dumps` serialization of the
    pre-serialization body dict, and parsing that string yields exactly
    that dict back. -/
theorem c9_body_roundtrip {Ctx : Type} (func : Dict → Ctx → HandlerResult)
    (event : Dict) (ctx : Ctx) (st : ResponseState)
    (h : wrapperRun func event ctx = .ok st) :
    wrapper func event ctx = .ok
      { statusCode := st.statusCode, body := json_dumps (bodyJson st) } ∧
    json_parse (json_dumps (bodyJson st)) = some (bodyJson st) := by
  constructor
  · unfold wrapper
    rw [h]
    rfl
  · exact json_parse_dumps _

/-- C9 witness: concrete round-trip of a success envelope's body. -/
theorem c9_witness :
    wrapper (fun _ _ => HandlerResult.ret (Json.num 7)) ev0 () = .ok
      { statusCode := StatusCode.str "200",
        body := json_dumps
          (bodyJson
            { statusCode := StatusCode.str "200", message := "Success",
              response := some (Json.num 7) }) } ∧
    json_parse
        (json_dumps
          (bodyJson
            { statusCode := StatusCode.str "200", message := "Success",
              response := some (Json.num 7) })) =
      some
        (bodyJson
          { statusCode := StatusCode.str "200", message := "Success",
            response := some (Json.num 7) }) :=
  c9_body_roundtrip (fun _ _ => HandlerResult.ret (Json.num 7)) ev0 ()
    { statusCode := StatusCode.str "200", message := "Success",
      response := some (Json.num 7) } rfl

/-- C10: when the event lacks any of `resource`, `queryStringParameters`
    or `body`, the `KeyError` from line 45's format call is re-raised
    (wrapped) by the generic `except` clause before the inner handler
    could run: no envelope is returned, and the outcome does not depend
    on the handler at all. -/
theorem c10_missing_event_keys {Ctx : Type}
    (func func2 : Dict → Ctx → HandlerResult) (event : Dict) (ctx : Ctx)
    (h : dictGet event "resource" = none ∨
         dictGet event "queryStringParameters" = none ∨
         dictGet event "body" = none) :
    (∃ k, wrapper func event ctx = .error (.exceptionOf (.keyError k))) ∧
    wrapper func event ctx = wrapper func2 event ctx := by
  unfold wrapper wrapperRun tryBlock
  rcases h with h | h | h
  · rw [h]
    exact ⟨⟨"resource", rfl⟩, rfl⟩
  · cases hr : dictGet event "resource" with
    | none => exact ⟨⟨"resource", rfl⟩, rfl⟩
    | some jr =>
      rw [h]
      exact ⟨⟨"queryStringParameters", rfl⟩, rfl⟩
  · cases hr : dictGet event "resource" with
    | none => exact ⟨⟨"resource", rfl⟩, rfl⟩
    | some jr =>
      cases hq : dictGet event "queryStringParameters" with
      | none => exact ⟨⟨"queryStringParameters", rfl⟩, rfl⟩
      | some jq =>
        rw [h]
        exact ⟨⟨"body", rfl⟩, rfl⟩

/-- C10 witness: an event with only `resource` makes the wrapper raise a
    wrapped `KeyError` whatever the handler would have done. -/
theorem c10_witness :
    (∃ k, wrapper (fun _ _ => HandlerResult.ret (Json.num 1))
        [("resource", Json.str "/r")] () =
      .error (.exceptionOf (.keyError k))) ∧
    wrapper (fun _ _ => HandlerResult.ret (Json.num 1))
        [("resource", Json.str "/r")] () =
      wrapper (fun _ _ => HandlerResult.raise (PyExc.other "x"))
        [("resource", Json.str "/r")] () :=
  c10_missing_event_keys (fun _ _ => HandlerResult.ret (Json.num 1))
    (fun _ _ => HandlerResult.raise (PyExc.other "x"))
    [("resource", Json.str "/r")] () (Or.inr (Or.inl rfl))

end Tlx
